import Mathlib

/-!
Verification of the LDIF backend (servers/slapd/back-ldif/ldif.c).

Bytes are modelled as `Nat` (values < 256 in practice; the encoder reduces
mod 256 exactly where the C casts do).  LDAP result codes and errno values
are the numeric constants of the C headers.  Filesystem effects are modelled
by explicit state records, and each syscall's outcome by an environment
record mirroring the branches the C code distinguishes.

Platform: the POSIX build (`_WIN32` undefined), so
`LDIF_ESCAPE_CHAR = '\\'` (92), `LDAP_DIRSEP = "/"` (47),
`IX_FSL = IX_DNL = '{'` (123), `IX_FSR = IX_DNR = '}'` (125).
-/

/-! ## LDAP result codes and errno values used by ldif.c -/

def LDAP_SUCCESS : Nat := 0
def LDAP_NO_SUCH_OBJECT : Nat := 32
def LDAP_INVALID_CREDENTIALS : Nat := 49
def LDAP_INAPPROPRIATE_AUTH : Nat := 48
def LDAP_ALREADY_EXISTS : Nat := 68
def LDAP_NOT_ALLOWED_ON_NONLEAF : Nat := 66
def LDAP_UNWILLING_TO_PERFORM : Nat := 53
def LDAP_BUSY : Nat := 51
def LDAP_OTHER : Nat := 80

def ENOENT : Nat := 2
def ENOMEM : Nat := 12
def ENOTEMPTY : Nat := 39

def LDAP_SCOPE_BASE : Nat := 0
def LDAP_SCOPE_ONELEVEL : Nat := 1
def LDAP_SCOPE_SUBTREE : Nat := 2
def LDAP_SCOPE_SUBORDINATE : Nat := 3

/-- INT_MAX on the modelled ILP32/LP64 platforms. -/
def INT_MAX : Nat := 2147483647

/-! ## Path codec (dn2path, lines 178-234, and the escape tables, lines 79-135)

Byte constants: `'\\' = 92`, `'/' = 47`, `':' = 58`, `'.' = 46`, `',' = 44`,
`'{' = 123`, `'}' = 125`. -/

/-- LDIF_UNSAFE_CHAR(c), Unix/MacOSX version (ldif.c line 87):
`(c) == '/' || (c) == ':'`. -/
def LDIF_UNSAFE_CHAR (c : Nat) : Bool := c == 47 || c == 58

/-- LDIF_MAYBE_UNSAFE(c, x) (ldif.c line 133): treat x as unsafe unless
back-ldif already treats it specially
(`!(LDIF_UNSAFE_CHAR(x) || (x) == '\\' || (x) == IX_DNL || (x) == IX_DNR) && (c) == (x)`). -/
def LDIF_MAYBE_UNSAFE_CHAR (c x : Nat) : Bool :=
  !(LDIF_UNSAFE_CHAR x || x == 92 || x == 123 || x == 125) && c == x

/-- LDIF_NEED_ESCAPE(c) (ldif.c line 122): unsafe chars plus the escape char,
the LDIF filetype separator '.', and the translated IX_FSL/IX_FSR braces.
With the POSIX constants (`LDIF_ESCAPE_CHAR = 92`, `LDIF_FILETYPE_SEP = 46`,
`IX_FSL = 123`, `IX_FSR = 125`, and `IX_FSR != IX_FSL`). -/
def LDIF_NEED_ESCAPE (c : Nat) : Bool :=
  LDIF_UNSAFE_CHAR c ||
  LDIF_MAYBE_UNSAFE_CHAR c 92 ||
  LDIF_MAYBE_UNSAFE_CHAR c 46 ||
  LDIF_MAYBE_UNSAFE_CHAR c 123 ||
  (125 != 123 && LDIF_MAYBE_UNSAFE_CHAR c 125)

/-- The hex digit table `hex[] = "0123456789ABCDEF"` (ldif.c line 186),
indexed by a nibble. -/
def hexDigit (n : Nat) : Nat := if n < 10 then 48 + n else 55 + n

/-- One byte of the dn2path inner emission loop (ldif.c lines 215-228).
On POSIX the `LDIF_ESCAPE_CHAR != '\\'` and `IX_FSL != IX_DNL` /
`IX_FSR != IX_DNR` translation branches are compile-time dead, leaving:
escape the byte as `'\\' hex[(ch & 0xFF) >> 4] hex[ch & 0x0F]` when
LDIF_NEED_ESCAPE holds, else emit it unchanged. -/
def encodeByte (c : Nat) : List Nat :=
  if LDIF_NEED_ESCAPE c then [92, hexDigit (c % 256 / 16), hexDigit (c % 16)] else [c]

/-- The emission loop applied to one DN component (RDN or suffix). -/
def encodeSeg (s : List Nat) : List Nat := (s.map encodeByte).flatten

/-- The inner `while ( (p = next) > start ) { --next; if DN_SEPARATOR(*next) break; }`
of dn2path (lines 209-213): scanning down from position `k`, find the last
DN separator `','` (44) strictly below `k`; return the position just after it
(so the C variables are `p = sepScan dn k` and `next = p - 1`), or 0 when no
separator exists below `k`. -/
def sepScan (dn : List Nat) (k : Nat) : Nat :=
  match k with
  | 0 => 0
  | j + 1 => if dn.getD j 0 == 44 then j + 1 else sepScan dn j

theorem sepScan_le (dn : List Nat) : ∀ k, sepScan dn k ≤ k := by
  intro k
  induction k with
  | zero => simp [sepScan]
  | succ j ih =>
    simp only [sepScan]
    split
    · exact Nat.le_refl _
    · exact Nat.le_succ_of_le ih

/-- The outer component loop of dn2path from its second iteration on, where
`next` enters equal to `end`: emit the component `dn[p .. endPos)` found by
the separator scan, then continue below the separator. -/
def rdnSegs (dn : List Nat) (endPos : Nat) : List (List Nat) :=
  if h : endPos = 0 then []
  else
    ((dn.drop (sepScan dn endPos)).take (endPos - sepScan dn endPos)) ::
      rdnSegs dn (sepScan dn endPos - 1)
termination_by endPos
decreasing_by
  have h1 : sepScan dn endPos ≤ endPos := sepScan_le dn endPos
  omega

/-- The bytes of `".ldif"` (the LDIF macro, line 57). -/
def ldifExt : List Nat := [46, 108, 100, 105, 102]

/-- dn2path (ldif.c lines 178-234): the LDIF filename path for a normalized
DN under the backend.  The first outer iteration starts the separator scan at
`dn.length - suffix.length`, so the configured suffix is emitted as one
segment (even if it contains commas); each further iteration emits one
comma-separated component, scanning from the leaf end of the DN outward.
Each segment is emitted as `'/'` followed by its escaped bytes, and `".ldif"`
is appended.  An empty DN emits no segment (`end > start` fails at once). -/
def dn2path (base suffix dn : List Nat) : List Nat :=
  if dn.length = 0 then base ++ ldifExt
  else
    let p0 := sepScan dn (dn.length - suffix.length)
    let segs := ((dn.drop p0).take (dn.length - p0)) :: rdnSegs dn (p0 - 1)
    base ++ (segs.map (fun s => 47 :: encodeSeg s)).flatten ++ ldifExt

/-! ### Decoders (proof tools, not part of the C code)

The injectivity proofs go through explicit left inverses: a hex-pair decoder
for one segment, a `'/'` splitter for the segment list, and a comma recombiner
for the component split. -/

/-- Whether the two bytes are the upper-case hex pair the encoder emits for
one of the three escaped bytes: "2E" (46 `'.'`), "2F" (47 `'/'`), "3A" (58 `':'`). -/
def isEscPair (c d : Nat) : Bool :=
  (c == 50 && (d == 69 || d == 70)) || (c == 51 && d == 65)

/-- The byte a recognised escape pair stands for. -/
def decodePair (c d : Nat) : Nat :=
  if c == 50 && d == 69 then 46
  else if c == 50 && d == 70 then 47
  else if c == 51 && d == 65 then 58
  else 0

/-- Left inverse of `encodeSeg` on escape-free inputs: a `'\\'` followed by a
recognised hex pair decodes to the escaped byte, anything else is literal. -/
def decodeSeg : List Nat → List Nat
  | [] => []
  | a :: c :: d :: rest2 =>
    if a == 92 && isEscPair c d then decodePair c d :: decodeSeg rest2
    else a :: decodeSeg (c :: d :: rest2)
  | a :: rest => a :: decodeSeg rest

/-- A byte string is escape-free when no `'\\'` in it is followed by a hex
pair of an escaped byte.  OpenLDAP DN normalization never emits `\2E`, `\2F`
or `\3A` (`'.'`, `'/'` and `':'` need no DN escaping), so every normalized DN
component is escape-free. -/
def noEsc : List Nat → Bool
  | a :: b :: c :: rest => !(a == 92 && isEscPair b c) && noEsc (b :: c :: rest)
  | _ => true

/-! ### Facts about the segment encoder -/

theorem hexDigit_ge_48 (n : Nat) : 48 ≤ hexDigit n := by
  unfold hexDigit; split <;> omega

/-- Every byte an `encodeByte` can emit: the unescaped byte itself, the
escape character, or a hex digit. -/
theorem mem_encodeByte {x c : Nat} (h : x ∈ encodeByte c) :
    (LDIF_NEED_ESCAPE c = false ∧ x = c) ∨ x = 92 ∨ ∃ n, x = hexDigit n := by
  unfold encodeByte at h
  by_cases hc : LDIF_NEED_ESCAPE c = true
  · simp only [hc, if_true, List.mem_cons] at h
    rcases h with h | h | h | h
    · exact Or.inr (Or.inl h)
    · exact Or.inr (Or.inr ⟨_, h⟩)
    · exact Or.inr (Or.inr ⟨_, h⟩)
    · exact absurd h (List.not_mem_nil x)
  · simp [hc] at h
    exact Or.inl ⟨Bool.eq_false_iff.mpr hc, h⟩

/-- The path separator `'/'` never occurs inside an encoded segment: it is
escaped, and escape sequences consist of `'\\'` and hex digits. -/
theorem slash_not_mem_encodeSeg (s : List Nat) : 47 ∉ encodeSeg s := by
  intro hmem
  unfold encodeSeg at hmem
  rw [List.mem_flatten] at hmem
  obtain ⟨l, hl, h47⟩ := hmem
  rw [List.mem_map] at hl
  obtain ⟨c, _, rfl⟩ := hl
  rcases mem_encodeByte h47 with ⟨hne, rfl⟩ | h | ⟨n, hn⟩
  · exact absurd hne (by decide)
  · omega
  · have := hexDigit_ge_48 n; omega

/-- The filetype separator `'.'` (46) never occurs inside an encoded segment. -/
theorem dot_not_mem_encodeSeg (s : List Nat) : 46 ∉ encodeSeg s := by
  intro hmem
  unfold encodeSeg at hmem
  rw [List.mem_flatten] at hmem
  obtain ⟨l, hl, h46⟩ := hmem
  rw [List.mem_map] at hl
  obtain ⟨c, _, rfl⟩ := hl
  rcases mem_encodeByte h46 with ⟨hne, rfl⟩ | h | ⟨n, hn⟩
  · exact absurd hne (by decide)
  · omega
  · have := hexDigit_ge_48 n; omega

theorem encodeSeg_nil : encodeSeg [] = [] := rfl

theorem encodeSeg_cons (a : Nat) (s : List Nat) :
    encodeSeg (a :: s) = encodeByte a ++ encodeSeg s := by
  simp [encodeSeg]

theorem need_escape_iff (a : Nat) :
    LDIF_NEED_ESCAPE a = true ↔ a = 46 ∨ a = 47 ∨ a = 58 := by
  constructor
  · intro h
    simp [LDIF_NEED_ESCAPE, LDIF_MAYBE_UNSAFE_CHAR, LDIF_UNSAFE_CHAR] at h
    omega
  · rintro (rfl | rfl | rfl) <;> decide

theorem noEsc_cons {a : Nat} {l : List Nat} (h : noEsc (a :: l) = true) :
    noEsc l = true := by
  match l with
  | [] => rfl
  | [_] => rfl
  | b :: c :: rest =>
    unfold noEsc at h
    exact (Bool.and_eq_true _ _ |>.mp h).2

theorem noEsc_head {a b c : Nat} {l : List Nat}
    (h : noEsc (a :: b :: c :: l) = true) : ¬(a = 92 ∧ isEscPair b c = true) := by
  unfold noEsc at h
  have h1 := (Bool.and_eq_true _ _ |>.mp h).1
  rintro ⟨ha, hp⟩
  subst ha
  simp [hp] at h1

/-- Any byte sequence not beginning with a recognised escape pair after a
`'\\'` decodes that `'\\'` literally. -/
theorem decodeSeg_cons92 (E : List Nat)
    (h : ∀ c d r, E = c :: d :: r → isEscPair c d = false) :
    decodeSeg (92 :: E) = 92 :: decodeSeg E := by
  match E with
  | [] => rfl
  | [_] => rfl
  | c :: d :: r =>
    have := h c d r rfl
    simp [decodeSeg, this]

theorem decodeSeg_cons_ne {a : Nat} (E : List Nat) (ha : a ≠ 92) :
    decodeSeg (a :: E) = a :: decodeSeg E := by
  match E with
  | [] => rfl
  | [_] => rfl
  | c :: d :: r =>
    have hb : (a == 92) = false := by simp [ha]
    simp [decodeSeg, hb]

/-- The encoding of an escape-free tail never starts with a recognised escape
pair when the preceding input byte was a literal `'\\'`. -/
theorem encodeSeg_no_pair {s : List Nat} (h : noEsc (92 :: s) = true) :
    ∀ c d r, encodeSeg s = c :: d :: r → isEscPair c d = false := by
  intro c d r heq
  match s, h with
  | [], _ => simp [encodeSeg_nil] at heq
  | b :: s2, h =>
    rw [encodeSeg_cons] at heq
    by_cases hb : LDIF_NEED_ESCAPE b = true
    · unfold encodeByte at heq
      rw [if_pos hb] at heq
      simp only [List.cons_append] at heq
      obtain ⟨hc, -⟩ := List.cons.inj heq
      subst hc
      simp [isEscPair]
    · unfold encodeByte at heq
      rw [if_neg hb] at heq
      simp only [List.cons_append, List.nil_append] at heq
      obtain ⟨hc, heq2⟩ := List.cons.inj heq
      subst hc
      match s2, heq2 with
      | [], heq2 => simp [encodeSeg_nil] at heq2
      | b2 :: s3, heq2 =>
        rw [encodeSeg_cons] at heq2
        by_cases hb2 : LDIF_NEED_ESCAPE b2 = true
        · unfold encodeByte at heq2
          rw [if_pos hb2] at heq2
          simp only [List.cons_append] at heq2
          obtain ⟨hd, -⟩ := List.cons.inj heq2
          subst hd
          simp [isEscPair]
        · unfold encodeByte at heq2
          rw [if_neg hb2] at heq2
          simp only [List.cons_append, List.nil_append] at heq2
          obtain ⟨hd, -⟩ := List.cons.inj heq2
          subst hd
          have hhead := noEsc_head h
          cases hp : isEscPair b b2 with
          | false => rfl
          | true => exact absurd ⟨rfl, hp⟩ hhead

/-- decodeSeg is a left inverse of encodeSeg on escape-free byte strings. -/
theorem decodeSeg_encodeSeg : ∀ s : List Nat, noEsc s = true →
    decodeSeg (encodeSeg s) = s
  | [], _ => rfl
  | a :: s', h => by
    have ih := decodeSeg_encodeSeg s' (noEsc_cons h)
    rw [encodeSeg_cons]
    by_cases ha : LDIF_NEED_ESCAPE a = true
    · rcases (need_escape_iff a).mp ha with rfl | rfl | rfl
      · show decodeSeg (92 :: 50 :: 69 :: encodeSeg s') = 46 :: s'
        rw [decodeSeg, if_pos (by decide)]
        rw [ih]; rfl
      · show decodeSeg (92 :: 50 :: 70 :: encodeSeg s') = 47 :: s'
        rw [decodeSeg, if_pos (by decide)]
        rw [ih]; rfl
      · show decodeSeg (92 :: 51 :: 65 :: encodeSeg s') = 58 :: s'
        rw [decodeSeg, if_pos (by decide)]
        rw [ih]; rfl
    · unfold encodeByte
      rw [if_neg ha]
      simp only [List.cons_append, List.nil_append]
      by_cases ha92 : a = 92
      · subst ha92
        rw [decodeSeg_cons92 _ (encodeSeg_no_pair h), ih]
      · rw [decodeSeg_cons_ne _ ha92, ih]

/-- encodeSeg is injective on escape-free byte strings. -/
theorem encodeSeg_inj {s t : List Nat} (hs : noEsc s = true) (ht : noEsc t = true)
    (h : encodeSeg s = encodeSeg t) : s = t := by
  have := decodeSeg_encodeSeg s hs
  rw [h, decodeSeg_encodeSeg t ht] at this
  exact this.symm

/-! ### The slash splitter and the comma recombiner -/

theorem length_dropWhile_le (p : Nat → Bool) :
    ∀ l : List Nat, (l.dropWhile p).length ≤ l.length := by
  intro l
  induction l with
  | nil => simp
  | cons a t ih =>
    rw [List.dropWhile_cons]
    split
    · exact Nat.le_succ_of_le ih
    · exact Nat.le_refl _

/-- Split a path made of `'/'`-prefixed segments back into the segments. -/
def splitSlash : List Nat → List (List Nat)
  | [] => []
  | _ :: rest =>
    (rest.takeWhile (fun b => !(b == 47))) ::
      splitSlash (rest.dropWhile (fun b => !(b == 47)))
termination_by l => l.length
decreasing_by
  have := length_dropWhile_le (fun b => !(b == 47)) rest
  simp only [List.length_cons]
  omega

theorem takeWhile_append_all {p : Nat → Bool} : ∀ (s t : List Nat),
    (∀ b ∈ s, p b = true) → (s ++ t).takeWhile p = s ++ t.takeWhile p := by
  intro s t hs
  induction s with
  | nil => simp
  | cons a s2 ih =>
    rw [List.cons_append, List.takeWhile_cons, if_pos (hs a (List.mem_cons_self a s2))]
    rw [ih (fun b hb => hs b (List.mem_cons_of_mem a hb)), List.cons_append]

theorem dropWhile_append_all {p : Nat → Bool} : ∀ (s t : List Nat),
    (∀ b ∈ s, p b = true) → (s ++ t).dropWhile p = t.dropWhile p := by
  intro s t hs
  induction s with
  | nil => simp
  | cons a s2 ih =>
    rw [List.cons_append, List.dropWhile_cons, if_pos (hs a (List.mem_cons_self a s2))]
    exact ih (fun b hb => hs b (List.mem_cons_of_mem a hb))

theorem takeWhile_at47 (X : List Nat) :
    List.takeWhile (fun b => !(b == 47)) (47 :: X) = [] := by
  simp [List.takeWhile_cons]

theorem dropWhile_at47 (X : List Nat) :
    List.dropWhile (fun b => !(b == 47)) (47 :: X) = 47 :: X := by
  simp [List.dropWhile_cons]

/-- splitSlash recovers a list of slash-free segments from their joined,
slash-prefixed concatenation. -/
theorem splitSlash_flatten : ∀ L : List (List Nat),
    (∀ s ∈ L, 47 ∉ s) → splitSlash ((L.map (fun s => 47 :: s)).flatten) = L := by
  intro L
  induction L with
  | nil => intro _; simp [splitSlash]
  | cons s L2 ih =>
    intro hL
    have hs : ∀ b ∈ s, (!(b == 47)) = true := by
      intro b hb
      have hb47 : b ≠ 47 := by
        intro hb47; subst hb47
        exact hL s (List.mem_cons_self s L2) hb
      simp [hb47]
    simp only [List.map_cons, List.flatten_cons, List.cons_append]
    rw [splitSlash]
    rw [takeWhile_append_all s _ hs, dropWhile_append_all s _ hs]
    have htail : (∀ t ∈ L2, 47 ∉ t) := fun t ht => hL t (List.mem_cons_of_mem s ht)
    match L2 with
    | [] => simp [splitSlash]
    | t :: L3 =>
      simp only [List.map_cons, List.flatten_cons, List.cons_append]
      rw [takeWhile_at47, dropWhile_at47, List.append_nil]
      have h2 := ih htail
      simp only [List.map_cons, List.flatten_cons, List.cons_append] at h2
      rw [h2]

/-! ### noEsc is closed under contiguous sublists -/

theorem noEsc_append : ∀ (l r : List Nat), noEsc (l ++ r) = true → noEsc l = true
  | [], _, _ => rfl
  | [_], _, _ => rfl
  | [_, _], _, _ => rfl
  | a :: b :: c :: t, r, h => by
    unfold noEsc at h ⊢
    obtain ⟨h1, h2⟩ := Bool.and_eq_true _ _ |>.mp h
    exact Bool.and_eq_true _ _ |>.mpr ⟨h1, noEsc_append (b :: c :: t) r h2⟩

theorem noEsc_take {l : List Nat} (n : Nat) (h : noEsc l = true) :
    noEsc (l.take n) = true :=
  noEsc_append _ _ (by rw [List.take_append_drop]; exact h)

theorem noEsc_drop {l : List Nat} : ∀ (n : Nat), noEsc l = true →
    noEsc (l.drop n) = true := by
  induction l with
  | nil => intro n _; simp [noEsc]
  | cons a t ih =>
    intro n h
    match n with
    | 0 => exact h
    | m + 1 => exact ih m (noEsc_cons h)

/-! ### Recombining the component split -/

/-- Reassemble the components `rdnSegs` produced (leaf component last) into
the original byte string, reinserting the separators. -/
def recomb : List (List Nat) → List Nat
  | [] => []
  | [s] => s
  | s :: rest => recomb rest ++ 44 :: s

theorem recomb_cons (s : List Nat) (rest : List (List Nat)) (h : rest ≠ []) :
    recomb (s :: rest) = recomb rest ++ 44 :: s := by
  match rest with
  | [] => exact absurd rfl h
  | t :: r2 => rfl

theorem sepScan_found (dn : List Nat) : ∀ k j, sepScan dn k = j + 1 →
    dn.getD j 0 = 44 := by
  intro k
  induction k with
  | zero => intro j h; simp [sepScan] at h
  | succ m ih =>
    intro j h
    rw [sepScan] at h
    split at h
    · rename_i hm
      obtain rfl : m = j := by omega
      exact beq_iff_eq.mp hm
    · exact ih j h

theorem rdnSegs_ne_nil (dn : List Nat) {k : Nat} (h : k ≠ 0) :
    rdnSegs dn k ≠ [] := by
  rw [rdnSegs]
  simp [h]

theorem take_split_at (dn : List Nat) (j k : Nat) (hj : j < k) (hk : k ≤ dn.length)
    (h44 : dn.getD j 0 = 44) :
    dn.take k = dn.take j ++ 44 :: (dn.drop (j + 1)).take (k - (j + 1)) := by
  have hjlen : j < dn.length := lt_of_lt_of_le hj hk
  conv_lhs => rw [show k = j + (k - j) from by omega, List.take_add]
  congr 1
  rw [List.drop_eq_getElem_cons hjlen]
  rw [show dn[j] = 44 from by rw [← List.getD_eq_getElem dn 0 hjlen]; exact h44]
  rw [show k - j = (k - (j + 1)) + 1 from by omega, List.take_succ_cons]

/-- The component scan of dn2path loses no byte: recombining the components
found below position `k` restores `dn.take k`, provided the DN does not begin
with a separator. -/
theorem recomb_rdnSegs (dn : List Nat) (h0 : dn.getD 0 0 ≠ 44) :
    ∀ k, k ≤ dn.length → recomb (rdnSegs dn k) = dn.take k := by
  intro k
  induction k using Nat.strong_induction_on with
  | _ k ih =>
    intro hk
    match k with
    | 0 => simp [rdnSegs, recomb]
    | m + 1 =>
      rw [rdnSegs]
      simp only [Nat.succ_ne_zero, dite_false]
      cases hp : sepScan dn (m + 1) with
      | zero =>
        simp only [Nat.zero_sub, List.drop_zero, Nat.sub_zero]
        rw [rdnSegs]
        simp [recomb]
      | succ j =>
        have hj44 : dn.getD j 0 = 44 := sepScan_found dn (m + 1) j hp
        have hjne : j ≠ 0 := by
          intro hj0; subst hj0; exact h0 hj44
        have hple : j + 1 ≤ m + 1 := by
          have := sepScan_le dn (m + 1); omega
        simp only [Nat.add_sub_cancel]
        rw [recomb_cons _ _ (rdnSegs_ne_nil dn hjne)]
        rw [ih j (by omega) (by omega)]
        rw [take_split_at dn j (m + 1) (by omega) hk hj44]

/-- Every component `rdnSegs` finds below `k` is a contiguous slice of
`dn.take k`, hence escape-free whenever `dn.take k` is. -/
theorem noEsc_rdnSegs (dn : List Nat) :
    ∀ k, noEsc (dn.take k) = true → ∀ s ∈ rdnSegs dn k, noEsc s = true := by
  intro k
  induction k using Nat.strong_induction_on with
  | _ k ih =>
    intro hk s hs
    match k with
    | 0 => rw [rdnSegs] at hs; simp at hs
    | m + 1 =>
      rw [rdnSegs] at hs
      simp only [Nat.succ_ne_zero, dite_false, List.mem_cons] at hs
      have hple : sepScan dn (m + 1) ≤ m + 1 := sepScan_le dn (m + 1)
      rcases hs with rfl | hs
      · have hslice : (dn.drop (sepScan dn (m + 1))).take (m + 1 - sepScan dn (m + 1)) =
            (dn.take (m + 1)).drop (sepScan dn (m + 1)) := by
          rw [List.drop_take]
        rw [hslice]
        exact noEsc_drop _ hk
      · have hsub : dn.take (sepScan dn (m + 1) - 1) =
            (dn.take (m + 1)).take (sepScan dn (m + 1) - 1) := by
          rw [List.take_take, Nat.min_eq_left (by omega)]
        have hk2 : noEsc (dn.take (sepScan dn (m + 1) - 1)) = true := by
          rw [hsub]; exact noEsc_take _ hk
        exact ih (sepScan dn (m + 1) - 1) (by omega) hk2 s hs

/-- Mapping encodeSeg over lists of escape-free segments is injective. -/
theorem map_encodeSeg_inj : ∀ (l1 l2 : List (List Nat)),
    (∀ s ∈ l1, noEsc s = true) → (∀ s ∈ l2, noEsc s = true) →
    l1.map encodeSeg = l2.map encodeSeg → l1 = l2 := by
  intro l1
  induction l1 with
  | nil =>
    intro l2 _ _ h
    match l2 with
    | [] => rfl
    | t :: r => simp at h
  | cons s r1 ih =>
    intro l2 h1 h2 h
    match l2 with
    | [] => simp at h
    | t :: r2 =>
      simp only [List.map_cons, List.cons.injEq] at h
      have hst : s = t :=
        encodeSeg_inj (h1 s (List.mem_cons_self s r1)) (h2 t (List.mem_cons_self t r2)) h.1
      rw [hst, ih r2 (fun x hx => h1 x (List.mem_cons_of_mem s hx))
        (fun x hx => h2 x (List.mem_cons_of_mem t hx)) h.2]

/-! ### The shape of dn2path on well-formed DNs -/

theorem getD_append_len (pre t : List Nat) (x : Nat) :
    (pre ++ x :: t).getD pre.length 0 = x := by
  induction pre with
  | nil => rfl
  | cons a p ih => simp only [List.cons_append, List.length_cons, List.getD_cons_succ, ih]

theorem drop_append_len (pre t : List Nat) (x : Nat) :
    (pre ++ x :: t).drop (pre.length + 1) = t := by
  induction pre with
  | nil => rfl
  | cons a p ih => simp only [List.cons_append, List.length_cons, List.drop_succ_cons, ih]

theorem getD_append_head (pre r : List Nat) (h : pre ≠ []) :
    (pre ++ r).getD 0 0 = pre.getD 0 0 := by
  match pre with
  | [] => exact absurd rfl h
  | a :: p => rfl

/-- dn2path on a DN that is exactly the (nonempty) suffix: one segment. -/
theorem dn2path_suffix_only (base suffix : List Nat) (h : suffix ≠ []) :
    dn2path base suffix suffix =
      base ++ (([suffix].map (fun s => 47 :: encodeSeg s)).flatten) ++ ldifExt := by
  unfold dn2path
  have hlen : suffix.length ≠ 0 := by
    intro h0; exact h (List.length_eq_zero.mp h0)
  simp only [hlen, if_false, Nat.sub_self]
  rw [show sepScan suffix 0 = 0 from rfl]
  rw [rdnSegs]
  simp [List.take_length]

/-- dn2path on a DN of the form `pre ++ "," ++ suffix`: the suffix is one
segment and the remaining components come from the scan over `pre`. -/
theorem dn2path_structured (base suffix pre : List Nat) :
    dn2path base suffix (pre ++ 44 :: suffix) =
      base ++ (((suffix :: rdnSegs (pre ++ 44 :: suffix) pre.length).map
        (fun s => 47 :: encodeSeg s)).flatten) ++ ldifExt := by
  unfold dn2path
  have hlen : (pre ++ 44 :: suffix).length = pre.length + 1 + suffix.length := by
    simp; omega
  have hlen0 : (pre ++ 44 :: suffix).length ≠ 0 := by
    rw [hlen]; omega
  simp only [hlen0, if_false]
  have hsub : (pre ++ 44 :: suffix).length - suffix.length = pre.length + 1 := by
    rw [hlen]; omega
  rw [hsub]
  have hscan : sepScan (pre ++ 44 :: suffix) (pre.length + 1) = pre.length + 1 := by
    rw [sepScan]
    rw [if_pos (by rw [getD_append_len]; rfl)]
  rw [hscan]
  have hdrop : ((pre ++ 44 :: suffix).drop (pre.length + 1)).take
      ((pre ++ 44 :: suffix).length - (pre.length + 1)) = suffix := by
    rw [drop_append_len, hlen]
    simp
  rw [hdrop]
  simp only [Nat.add_sub_cancel]

/-- The well-formedness facts about a normalized DN with the configured
suffix that the injectivity proof uses: the DN is the suffix itself, or a
nonempty prefix, a separator, and the suffix, where the prefix does not start
with a separator (no empty leading RDN) and is escape-free in the sense of
`noEsc` (OpenLDAP DN normalization never hex-escapes `'.'`, `'/'` or `':'`,
which need no escaping in a DN). -/
def NormalizedUnder (suffix dn : List Nat) : Prop :=
  dn = suffix ∨
    ∃ pre, dn = pre ++ 44 :: suffix ∧ pre ≠ [] ∧ pre.getD 0 0 ≠ 44 ∧ noEsc pre = true

theorem segs_slash_free (segs : List (List Nat)) :
    ∀ s ∈ segs.map encodeSeg, 47 ∉ s := by
  intro s hs
  rw [List.mem_map] at hs
  obtain ⟨t, _, rfl⟩ := hs
  exact slash_not_mem_encodeSeg t

theorem flatten_map_shift (segs : List (List Nat)) :
    (segs.map (fun s => 47 :: encodeSeg s)).flatten =
      ((segs.map encodeSeg).map (fun s => 47 :: s)).flatten := by
  rw [List.map_map]
  rfl

/-- From equal dn2path outputs, equal encoded segment lists. -/
theorem path_eq_segs_eq (base : List Nat) (segs1 segs2 : List (List Nat))
    (h : base ++ ((segs1.map (fun s => 47 :: encodeSeg s)).flatten) ++ ldifExt =
         base ++ ((segs2.map (fun s => 47 :: encodeSeg s)).flatten) ++ ldifExt) :
    segs1.map encodeSeg = segs2.map encodeSeg := by
  have h1 := List.append_cancel_right h
  have h2 := List.append_cancel_left h1
  rw [flatten_map_shift, flatten_map_shift] at h2
  have e1 := splitSlash_flatten (segs1.map encodeSeg) (segs_slash_free segs1)
  have e2 := splitSlash_flatten (segs2.map encodeSeg) (segs_slash_free segs2)
  rw [← e1, ← e2, h2]

theorem recomb_rdnSegs_pre (suffix pre : List Nat) (hne : pre ≠ [])
    (hh : pre.getD 0 0 ≠ 44) :
    recomb (rdnSegs (pre ++ 44 :: suffix) pre.length) = pre := by
  have h0 : (pre ++ 44 :: suffix).getD 0 0 ≠ 44 := by
    rw [getD_append_head _ _ hne]; exact hh
  have hle : pre.length ≤ (pre ++ 44 :: suffix).length := by simp
  rw [recomb_rdnSegs _ h0 _ hle, List.take_left]

theorem noEsc_rdnSegs_pre (suffix pre : List Nat) (he : noEsc pre = true) :
    ∀ s ∈ rdnSegs (pre ++ 44 :: suffix) pre.length, noEsc s = true := by
  apply noEsc_rdnSegs
  rw [List.take_left]
  exact he

theorem dn2path_inj_aux (base suffix dn1 dn2 : List Nat)
    (h1 : NormalizedUnder suffix dn1) (h2 : NormalizedUnder suffix dn2)
    (hne : dn1 ≠ dn2) :
    dn2path base suffix dn1 ≠ dn2path base suffix dn2 := by
  intro heq
  apply hne
  rcases h1 with h1eq | ⟨p1, h1eq, h1ne, h1h, h1e⟩ <;>
    rcases h2 with h2eq | ⟨p2, h2eq, h2ne, h2h, h2e⟩ <;>
    rw [h1eq, h2eq] at heq ⊢
  · exfalso
    by_cases hs : suffix = []
    · subst hs
      rw [show dn2path base [] [] = base ++ ldifExt from rfl,
        dn2path_structured base [] p2] at heq
      have h1' := List.append_cancel_right (α := Nat)
        (by simpa using heq :
          base ++ ([] : List Nat) ++ ldifExt =
            base ++ (((([] : List Nat) :: rdnSegs (p2 ++ [44]) p2.length).map
              (fun s => 47 :: encodeSeg s)).flatten) ++ ldifExt)
      have h2' := List.append_cancel_left h1'
      simp at h2'
    · rw [dn2path_suffix_only base suffix hs,
        dn2path_structured base suffix p2] at heq
      have hsegs := path_eq_segs_eq base _ _ heq
      have hlen := congrArg List.length hsegs
      simp only [List.length_map, List.length_cons] at hlen
      have hk0 : p2.length ≠ 0 := by
        intro h0; exact h2ne (List.length_eq_zero.mp h0)
      have hnn := rdnSegs_ne_nil (p2 ++ 44 :: suffix) hk0
      simp only [List.length_nil] at hlen
      exact hnn (List.length_eq_zero.mp (by omega))
  · exfalso
    by_cases hs : suffix = []
    · subst hs
      rw [show dn2path base [] [] = base ++ ldifExt from rfl,
        dn2path_structured base [] p1] at heq
      have h1' := List.append_cancel_right (α := Nat)
        (by simpa using heq.symm :
          base ++ ([] : List Nat) ++ ldifExt =
            base ++ (((([] : List Nat) :: rdnSegs (p1 ++ [44]) p1.length).map
              (fun s => 47 :: encodeSeg s)).flatten) ++ ldifExt)
      have h2' := List.append_cancel_left h1'
      simp at h2'
    · rw [dn2path_suffix_only base suffix hs,
        dn2path_structured base suffix p1] at heq
      have hsegs := path_eq_segs_eq base _ _ heq.symm
      have hlen := congrArg List.length hsegs
      simp only [List.length_map, List.length_cons] at hlen
      have hk0 : p1.length ≠ 0 := by
        intro h0; exact h1ne (List.length_eq_zero.mp h0)
      have hnn := rdnSegs_ne_nil (p1 ++ 44 :: suffix) hk0
      simp only [List.length_nil] at hlen
      exact hnn (List.length_eq_zero.mp (by omega))
  · rw [dn2path_structured base suffix p1, dn2path_structured base suffix p2] at heq
    have hsegs := path_eq_segs_eq base _ _ heq
    simp only [List.map_cons] at hsegs
    have htail := (List.cons.inj hsegs).2
    have hr := map_encodeSeg_inj _ _ (noEsc_rdnSegs_pre suffix p1 h1e)
      (noEsc_rdnSegs_pre suffix p2 h2e) htail
    have e1 := recomb_rdnSegs_pre suffix p1 h1ne h1h
    have e2 := recomb_rdnSegs_pre suffix p2 h2ne h2h
    rw [hr, e2] at e1
    rw [e1]

/-- C1: path encoding is injective.  For every pair of distinct normalized
DNs that both have the configured backend suffix (modelled by
`NormalizedUnder`: the DN is the suffix, or a nonempty escape-free prefix
followed by a separator and the suffix), dn2path produces different
filesystem paths under the same base directory. -/
theorem C1_path_injectivity (base suffix dn1 dn2 : List Nat)
    (h1 : NormalizedUnder suffix dn1) (h2 : NormalizedUnder suffix dn2)
    (hne : dn1 ≠ dn2) :
    dn2path base suffix dn1 ≠ dn2path base suffix dn2 :=
  dn2path_inj_aux base suffix dn1 dn2 h1 h2 hne

/-- Witness for C1 at concrete input: with suffix `o=x`, the DNs `cn=a,o=x`
and `cn=b,o=x` (as byte lists) map to different paths. -/
theorem C1_path_injectivity_witness :
    dn2path [] [111, 61, 120] [99, 110, 61, 97, 44, 111, 61, 120] ≠
      dn2path [] [111, 61, 120] [99, 110, 61, 98, 44, 111, 61, 120] :=
  C1_path_injectivity [] [111, 61, 120] _ _
    (Or.inr ⟨[99, 110, 61, 97], rfl, by decide, by decide, by decide⟩)
    (Or.inr ⟨[99, 110, 61, 98], rfl, by decide, by decide, by decide⟩)
    (by decide)

/-- C7: every `'.'` byte is hex-escaped by the path encoder.  First conjunct:
no encoded segment ever contains a literal `'.'` (46).  Second: the RDN
`cn=file.ldif` encodes to the segment `cn=file\2Eldif`.  Third: with suffix
`o=x`, the entry file of `cn=file.ldif,o=x` differs from the entry file of
`cn=file,o=x`, so the two cannot collide. -/
theorem C7_dot_escaped :
    (∀ s : List Nat, (encodeSeg s).count 46 = 0) ∧
    encodeSeg [99, 110, 61, 102, 105, 108, 101, 46, 108, 100, 105, 102] =
      [99, 110, 61, 102, 105, 108, 101, 92, 50, 69, 108, 100, 105, 102] ∧
    dn2path [] [111, 61, 120]
        ([99, 110, 61, 102, 105, 108, 101, 46, 108, 100, 105, 102] ++ 44 :: [111, 61, 120]) ≠
      dn2path [] [111, 61, 120]
        ([99, 110, 61, 102, 105, 108, 101] ++ 44 :: [111, 61, 120]) := by
  refine ⟨fun s => List.count_eq_zero.mpr (dot_not_mem_encodeSeg s), by decide, ?_⟩
  exact dn2path_inj_aux [] [111, 61, 120] _ _
    (Or.inr ⟨[99, 110, 61, 102, 105, 108, 101, 46, 108, 100, 105, 102], rfl,
      by decide, by decide, by decide⟩)
    (Or.inr ⟨[99, 110, 61, 102, 105, 108, 101], rfl, by decide, by decide, by decide⟩)
    (by decide)

/-! ## Entry file I/O

`ldif_write_entry` (ldif.c lines 345-420) and `ldif_read_file` (lines
262-319).  A syscall environment records each step's outcome (and the errno a
failing step sets); the target entry file is `Option` content.  The temporary
file has a fresh `mkstemp` name, so it does not exist before the call; the
model reports whether it is left behind. -/

structure WriteEnv where
  mkstemp_ok : Bool
  mkstemp_errno : Nat
  entry2str_ok : Bool
  spew_ok : Bool
  spew_errno : Nat
  close_ok : Bool
  close_errno : Nat
  rename_ok : Bool
  rename_errno : Nat

structure WriteResult where
  rc : Nat
  target : Option (List Nat)
  tmpLeft : Bool

/-- ldif_write_entry (lines 345-420).  Control flow: mkstemp; entry2str under
the serializer mutex (failure leaves `res = -2`); spew_file; close (a failing
close demotes a non-negative `res` to `-1`, line 387); move_file = rename
(line 393); `unlink(tmpfname)` whenever `rc != LDAP_SUCCESS` (line 410);
finally `rc == LDAP_OTHER && save_errno == ENOENT` is downgraded to
LDAP_NO_SUCH_OBJECT (line 414).  The in-memory DN truncation to the RDN
(lines 367-385) is restored before return and does not touch the filesystem. -/
def ldif_write_entry (env : WriteEnv) (content : List Nat)
    (target0 : Option (List Nat)) : WriteResult :=
  if !env.mkstemp_ok then
    { rc := if env.mkstemp_errno == ENOENT then LDAP_NO_SUCH_OBJECT else LDAP_OTHER,
      target := target0, tmpLeft := false }
  else
    let res : Int := if !env.entry2str_ok then -2 else if env.spew_ok then 0 else -1
    let save_errno : Nat :=
      if !env.entry2str_ok then 0 else if env.spew_ok then 0 else env.spew_errno
    let res2 : Int := if !env.close_ok && res ≥ 0 then -1 else res
    let save2 : Nat := if !env.close_ok && res ≥ 0 then env.close_errno else save_errno
    if res2 ≥ 0 then
      if env.rename_ok then
        { rc := LDAP_SUCCESS, target := some content, tmpLeft := false }
      else
        { rc := if env.rename_errno == ENOENT then LDAP_NO_SUCH_OBJECT else LDAP_OTHER,
          target := target0, tmpLeft := false }
    else
      { rc := if save2 == ENOENT then LDAP_NO_SUCH_OBJECT else LDAP_OTHER,
        target := target0, tmpLeft := false }

/-- C2: ldif_write_entry is failure-atomic.  Success happens exactly when
every step (temp-file creation, serialization, write, close, rename)
succeeds; on success the target holds the new contents; on any failure a
non-success code is returned and the target keeps its prior contents (or
stays absent); the temporary file is never left behind. -/
theorem C2_write_entry_atomic (env : WriteEnv) (content : List Nat)
    (target0 : Option (List Nat)) :
    ((ldif_write_entry env content target0).rc = LDAP_SUCCESS ↔
      (env.mkstemp_ok && env.entry2str_ok && env.spew_ok && env.close_ok &&
        env.rename_ok) = true) ∧
    ((ldif_write_entry env content target0).rc = LDAP_SUCCESS →
      (ldif_write_entry env content target0).target = some content) ∧
    ((ldif_write_entry env content target0).rc ≠ LDAP_SUCCESS →
      (ldif_write_entry env content target0).target = target0) ∧
    (ldif_write_entry env content target0).tmpLeft = false := by
  obtain ⟨m, me, e2s, sp, spe, cl, cle, rn, rne⟩ := env
  unfold ldif_write_entry
  cases m <;> cases e2s <;> cases sp <;> cases cl <;> cases rn <;>
    simp [LDAP_SUCCESS, LDAP_NO_SUCH_OBJECT, LDAP_OTHER, ENOENT] <;>
    split <;> simp

structure ReadEnv where
  wantData : Bool
  errno0 : Nat
  stat0_ok : Bool
  stat0_errno : Nat
  open_ok : Bool
  open_errno : Nat
  fstat_ok : Bool
  fstat_errno : Nat
  st_size : Nat
  malloc_ok : Bool
  read_ok : Bool
  read_errno : Nat
  grow : Bool
  close_ok : Bool
  close_errno : Nat

structure ReadResult where
  rc : Nat
  readAttempted : Bool

/-- ldif_read_file (lines 262-319).  With `datap == NULL` (`wantData =
false`) only `stat` runs.  Otherwise: open; fstat; the size guard
`st.st_size > INT_MAX - 2` sets `res = 1` without reading; SLAP_MALLOC
failure leaves `res = -1` with errno ENOMEM; the read loop (retrying EINTR,
line 283-290) ends with `res = -1` on a read error, `res > 0` if the file
grew past the stat size, else `res = 0`; a failing `close` forces `res = -1`
(line 295).  Result mapping (lines 300-314): `res == 0` is LDAP_SUCCESS,
`res < 0 && errno == ENOENT` is LDAP_NO_SUCH_OBJECT, anything else
LDAP_OTHER ("bad stat() size" when `res > 0`). -/
def ldif_read_file (env : ReadEnv) : ReadResult :=
  if !env.wantData then
    if env.stat0_ok then { rc := LDAP_SUCCESS, readAttempted := false }
    else
      { rc := if env.stat0_errno == ENOENT then LDAP_NO_SUCH_OBJECT else LDAP_OTHER,
        readAttempted := false }
  else if !env.open_ok then
    { rc := if env.open_errno == ENOENT then LDAP_NO_SUCH_OBJECT else LDAP_OTHER,
      readAttempted := false }
  else
    let st : Int × Nat × Bool :=
      if !env.fstat_ok then (-1, env.fstat_errno, false)
      else if env.st_size > INT_MAX - 2 then (1, env.errno0, false)
      else if !env.malloc_ok then (-1, ENOMEM, false)
      else if !env.read_ok then (-1, env.read_errno, true)
      else if env.grow then (1, env.errno0, true)
      else (0, env.errno0, true)
    let res2 : Int := if !env.close_ok then -1 else st.1
    let errno2 : Nat := if !env.close_ok then env.close_errno else st.2.1
    { rc := if res2 == 0 then LDAP_SUCCESS
        else if res2 < 0 && errno2 == ENOENT then LDAP_NO_SUCH_OBJECT
        else LDAP_OTHER,
      readAttempted := st.2.2 }

/-- C10: ldif_read_file refuses oversized files and reserves NotFound for the
no-such-file error.  Hypotheses: fstat, read and close never fail with errno
ENOENT (they operate on an already-open descriptor).  Then: whenever the
fstat-reported size exceeds INT_MAX - 2, no read is attempted and LDAP_OTHER
(not LDAP_NO_SUCH_OBJECT) is returned; and LDAP_NO_SUCH_OBJECT is returned
only when the failing call (open, or the datap-NULL stat) reported ENOENT. -/
theorem C10_read_file_size_guard (env : ReadEnv)
    (hf : env.fstat_errno ≠ ENOENT) (hr : env.read_errno ≠ ENOENT)
    (hc : env.close_errno ≠ ENOENT) :
    (env.wantData = true → env.open_ok = true → env.fstat_ok = true →
      env.st_size > INT_MAX - 2 →
      (ldif_read_file env).readAttempted = false ∧
        (ldif_read_file env).rc = LDAP_OTHER) ∧
    ((ldif_read_file env).rc = LDAP_NO_SUCH_OBJECT →
      (env.wantData = true → env.open_ok = false ∧ env.open_errno = ENOENT) ∧
      (env.wantData = false → env.stat0_ok = false ∧ env.stat0_errno = ENOENT)) := by
  obtain ⟨wd, e0, s0, s0e, op, ope, fs, fse, sz, ma, rd, rde, gr, cl, cle⟩ := env
  dsimp only at hf hr hc
  simp only [ENOENT] at hf hr hc
  constructor
  · rintro rfl rfl rfl hsz
    cases cl <;>
      simp [ldif_read_file, hsz, LDAP_OTHER, LDAP_NO_SUCH_OBJECT, ENOENT, hc]
  · intro h32
    constructor
    · rintro rfl
      cases op with
      | false =>
        refine ⟨rfl, ?_⟩
        by_cases hope : ope = ENOENT
        · exact hope
        · exfalso; revert h32
          simp [ldif_read_file, hope, LDAP_OTHER, LDAP_NO_SUCH_OBJECT]
      | true =>
        exfalso
        revert h32
        cases cl with
        | false => simp [ldif_read_file, hc, LDAP_OTHER, LDAP_NO_SUCH_OBJECT, ENOENT]
        | true =>
          cases fs with
          | false => simp [ldif_read_file, hf, LDAP_OTHER, LDAP_NO_SUCH_OBJECT, ENOENT]
          | true =>
            by_cases hsz : sz > INT_MAX - 2
            · simp [ldif_read_file, hsz, LDAP_OTHER, LDAP_NO_SUCH_OBJECT]
            · cases ma with
              | false =>
                simp [ldif_read_file, hsz, LDAP_OTHER, LDAP_NO_SUCH_OBJECT, ENOENT, ENOMEM]
              | true =>
                cases rd with
                | false =>
                  simp [ldif_read_file, hsz, hr, LDAP_OTHER, LDAP_NO_SUCH_OBJECT, ENOENT]
                | true =>
                  cases gr with
                  | false =>
                    simp [ldif_read_file, hsz, LDAP_SUCCESS, LDAP_NO_SUCH_OBJECT]
                  | true =>
                    simp [ldif_read_file, hsz, LDAP_OTHER, LDAP_NO_SUCH_OBJECT]
    · rintro rfl
      cases s0 with
      | false =>
        refine ⟨rfl, ?_⟩
        by_cases hs0e : s0e = ENOENT
        · exact hs0e
        · exfalso; revert h32
          simp [ldif_read_file, hs0e, LDAP_OTHER, LDAP_NO_SUCH_OBJECT]
      | true =>
        exfalso; revert h32
        simp [ldif_read_file, LDAP_SUCCESS, LDAP_NO_SUCH_OBJECT]

/-- A well-behaved environment for the C10 witness: the file opens, its
fstat size exceeds INT_MAX - 2, all other calls succeed; failing-call errno
fields are EIO-like (5), never ENOENT. -/
def readEnvBig : ReadEnv :=
  { wantData := true, errno0 := 0, stat0_ok := true, stat0_errno := 5,
    open_ok := true, open_errno := 5, fstat_ok := true, fstat_errno := 5,
    st_size := 2147483646, malloc_ok := true, read_ok := true, read_errno := 5,
    grow := false, close_ok := true, close_errno := 5 }

/-- Witness for C10 at the concrete environment `readEnvBig`. -/
theorem C10_read_file_size_guard_witness :
    (readEnvBig.wantData = true → readEnvBig.open_ok = true →
      readEnvBig.fstat_ok = true → readEnvBig.st_size > INT_MAX - 2 →
      (ldif_read_file readEnvBig).readAttempted = false ∧
        (ldif_read_file readEnvBig).rc = LDAP_OTHER) ∧
    ((ldif_read_file readEnvBig).rc = LDAP_NO_SUCH_OBJECT →
      (readEnvBig.wantData = true →
        readEnvBig.open_ok = false ∧ readEnvBig.open_errno = ENOENT) ∧
      (readEnvBig.wantData = false →
        readEnvBig.stat0_ok = false ∧ readEnvBig.stat0_errno = ENOENT)) :=
  C10_read_file_size_guard readEnvBig (by decide) (by decide) (by decide)

/-! ## Delete (ldif_back_delete, lines 1115-1173)

The entry's on-disk pair: the sibling subtree directory (the entry file path
with `".ldif"` stripped, `ldif2dir_len`/`ldif2dir_name`) and the entry file
itself.  `rmdir` outcomes follow the filesystem state, with an environment
flag injecting the "any other error" case; likewise `unlink`. -/

structure DelFS where
  dirExists : Bool
  dirNonempty : Bool
  fileExists : Bool

structure DelEnv where
  rmdir_other : Bool
  unlink_other : Bool

structure DelResult where
  rc : Nat
  fs : DelFS

/-- ldif_back_delete (lines 1115-1173), after the CSN bookkeeping: rmdir the
subtree directory (ENOTEMPTY → LDAP_NOT_ALLOWED_ON_NONLEAF, ENOENT → "is
leaf, go on", other error → LDAP_OTHER); then, only if still LDAP_SUCCESS,
unlink the entry file (failure → LDAP_NO_SUCH_OBJECT, upgraded to LDAP_OTHER
unless errno is ENOENT). -/
def ldif_back_delete (env : DelEnv) (fs : DelFS) : DelResult :=
  let rmres : Nat × DelFS :=
    if !fs.dirExists then (ENOENT, fs)
    else if fs.dirNonempty then (ENOTEMPTY, fs)
    else if env.rmdir_other then (5, fs)
    else (0, { fs with dirExists := false, dirNonempty := false })
  let fs1 := rmres.2
  let rc1 : Nat :=
    if rmres.1 == 0 then LDAP_SUCCESS
    else if rmres.1 == ENOTEMPTY then LDAP_NOT_ALLOWED_ON_NONLEAF
    else if rmres.1 == ENOENT then LDAP_SUCCESS
    else LDAP_OTHER
  if rc1 == LDAP_SUCCESS then
    if !fs1.fileExists then { rc := LDAP_NO_SUCH_OBJECT, fs := fs1 }
    else if env.unlink_other then { rc := LDAP_OTHER, fs := fs1 }
    else { rc := LDAP_SUCCESS, fs := { fs1 with fileExists := false } }
  else
    { rc := rc1, fs := fs1 }

/-- C3: delete first rmdirs the sibling subtree directory and maps the
outcomes.  Conjuncts: a nonempty existing directory yields
NotAllowedOnNonLeaf and leaves the filesystem untouched; a successful delete
leaves neither the entry file nor the directory; with the directory absent
(or empty and removable), a missing entry file yields NoSuchObject and any
other unlink error yields Other; a non-ENOTEMPTY, non-ENOENT rmdir error
yields Other. -/
theorem C3_delete_behaviour (env : DelEnv) (fs : DelFS) :
    (fs.dirExists = true → fs.dirNonempty = true →
      (ldif_back_delete env fs).rc = LDAP_NOT_ALLOWED_ON_NONLEAF ∧
        (ldif_back_delete env fs).fs = fs) ∧
    ((ldif_back_delete env fs).rc = LDAP_SUCCESS →
      (ldif_back_delete env fs).fs.fileExists = false ∧
        (ldif_back_delete env fs).fs.dirExists = false) ∧
    (fs.dirExists = false → fs.fileExists = false →
      (ldif_back_delete env fs).rc = LDAP_NO_SUCH_OBJECT) ∧
    (fs.dirExists = false → fs.fileExists = true → env.unlink_other = true →
      (ldif_back_delete env fs).rc = LDAP_OTHER) ∧
    (fs.dirExists = false → fs.fileExists = true → env.unlink_other = false →
      (ldif_back_delete env fs).rc = LDAP_SUCCESS) ∧
    (fs.dirExists = true → fs.dirNonempty = false → env.rmdir_other = true →
      (ldif_back_delete env fs).rc = LDAP_OTHER ∧
        (ldif_back_delete env fs).fs = fs) := by
  obtain ⟨de, dn, fe⟩ := fs
  obtain ⟨ro, uo⟩ := env
  cases de <;> cases dn <;> cases fe <;> cases ro <;> cases uo <;>
    simp [ldif_back_delete, LDAP_SUCCESS, LDAP_NO_SUCH_OBJECT, LDAP_OTHER,
      LDAP_NOT_ALLOWED_ON_NONLEAF, ENOENT, ENOTEMPTY]

/-! ## Add (ldif_back_add, lines 1008-1083)

State: the parent subtree directory, the parent entry file, and the target
entry file (with its contents).  Environment: the outcome codes of the two
external checks, error-injection flags for the three `stat` calls, the mkdir
outcome, and a `WriteEnv` for the final `ldif_write_entry`. -/

structure AddFS where
  parentDir : Bool
  parentFile : Bool
  target : Option (List Nat)

structure AddEnv where
  schema_rc : Nat
  opattrs_rc : Nat
  stat_dir_other : Bool
  stat_pfile_other : Bool
  stat_leaf_other : Bool
  mkdir_ok : Bool
  wenv : WriteEnv

structure AddResult where
  rc : Nat
  fs : AddFS
  mkdirMode : Option Nat
  tmpLeft : Bool

/-- Outcome of one `stat` call as ldif_back_add distinguishes them:
`statres == -1 && errno == ENOENT` (1), success (0), other failure (2). -/
def statModel (exists_ : Bool) (other : Bool) : Nat :=
  if other then 2 else if exists_ then 0 else 1

/-- ldif_back_add (lines 1008-1083).  entry_schema_check, then
slap_add_opattrs; under the write lock, dn2path and get_parent_path; stat the
container: if missing (ENOENT), stat the parent entry file — missing too →
LDAP_NO_SUCH_OBJECT "Parent does not exist"; present → `mkdir(base, 0750)`
(failure → LDAP_UNWILLING_TO_PERFORM); other stat error →
LDAP_UNWILLING_TO_PERFORM.  If still LDAP_SUCCESS, stat the target entry
file: missing → ldif_write_entry; other stat error →
LDAP_UNWILLING_TO_PERFORM; present → LDAP_ALREADY_EXISTS. -/
def ldif_back_add (env : AddEnv) (content : List Nat) (fs : AddFS) : AddResult :=
  if env.schema_rc != 0 then
    { rc := env.schema_rc, fs := fs, mkdirMode := none, tmpLeft := false }
  else if env.opattrs_rc != 0 then
    { rc := env.opattrs_rc, fs := fs, mkdirMode := none, tmpLeft := false }
  else
    let sdir := statModel fs.parentDir env.stat_dir_other
    let step1 : Nat × AddFS × Option Nat :=
      if sdir == 1 then
        let spf := statModel fs.parentFile env.stat_pfile_other
        if spf == 1 then (LDAP_NO_SUCH_OBJECT, fs, none)
        else if spf == 0 then
          if env.mkdir_ok then
            (LDAP_SUCCESS, { fs with parentDir := true }, some 488)
          else (LDAP_UNWILLING_TO_PERFORM, fs, some 488)
        else (LDAP_UNWILLING_TO_PERFORM, fs, none)
      else (LDAP_SUCCESS, fs, none)
    let rc1 := step1.1
    let fs1 := step1.2.1
    let mode := step1.2.2
    if rc1 == LDAP_SUCCESS then
      let sleaf := statModel fs1.target.isSome env.stat_leaf_other
      if sleaf == 1 then
        let w := ldif_write_entry env.wenv content fs1.target
        { rc := w.rc, fs := { fs1 with target := w.target }, mkdirMode := mode,
          tmpLeft := w.tmpLeft }
      else if sleaf == 2 then
        { rc := LDAP_UNWILLING_TO_PERFORM, fs := fs1, mkdirMode := mode,
          tmpLeft := false }
      else
        { rc := LDAP_ALREADY_EXISTS, fs := fs1, mkdirMode := mode,
          tmpLeft := false }
    else { rc := rc1, fs := fs1, mkdirMode := mode, tmpLeft := false }

/-- The external checks pass, no stat error is injected, and every write step
succeeds. -/
def AddEnvOk (env : AddEnv) : Prop :=
  env.schema_rc = 0 ∧ env.opattrs_rc = 0 ∧ env.stat_dir_other = false ∧
  env.stat_pfile_other = false ∧ env.stat_leaf_other = false ∧
  env.mkdir_ok = true ∧ env.wenv.mkstemp_ok = true ∧
  env.wenv.entry2str_ok = true ∧ env.wenv.spew_ok = true ∧
  env.wenv.close_ok = true ∧ env.wenv.rename_ok = true

/-- C4: add with a missing parent subtree directory checks the parent entry
file.  Under a well-behaved environment: parent dir missing and parent file
present → the directory is created with mode 0750 and, for a fresh target,
the add succeeds and writes the entry; parent dir and parent file both
missing → NoSuchObject, and nothing is created (state unchanged, no mkdir,
no temp file); parent check passable and target already present →
AlreadyExists with the target untouched; parent dir present and target fresh
→ the entry is written atomically. -/
theorem C4_add_parent_check (env : AddEnv) (content : List Nat) (fs : AddFS)
    (henv : AddEnvOk env) :
    (fs.parentDir = false → fs.parentFile = true → fs.target = none →
      (ldif_back_add env content fs).mkdirMode = some 488 ∧
      (ldif_back_add env content fs).rc = LDAP_SUCCESS ∧
      (ldif_back_add env content fs).fs.parentDir = true ∧
      (ldif_back_add env content fs).fs.target = some content) ∧
    (fs.parentDir = false → fs.parentFile = false →
      (ldif_back_add env content fs).rc = LDAP_NO_SUCH_OBJECT ∧
      (ldif_back_add env content fs).fs = fs ∧
      (ldif_back_add env content fs).mkdirMode = none ∧
      (ldif_back_add env content fs).tmpLeft = false) ∧
    ((fs.parentDir = true ∨ fs.parentFile = true) → fs.target.isSome = true →
      (ldif_back_add env content fs).rc = LDAP_ALREADY_EXISTS ∧
      (ldif_back_add env content fs).fs.target = fs.target) ∧
    (fs.parentDir = true → fs.target = none →
      (ldif_back_add env content fs).rc = LDAP_SUCCESS ∧
      (ldif_back_add env content fs).fs.target = some content ∧
      (ldif_back_add env content fs).tmpLeft = false) := by
  obtain ⟨h1, h2, h3, h4, h5, h6, h7, h8, h9, h10, h11⟩ := henv
  obtain ⟨pd, pf, tg⟩ := fs
  cases pd <;> cases pf <;> cases tg <;>
    simp_all [ldif_back_add, ldif_write_entry, statModel, LDAP_SUCCESS,
      LDAP_NO_SUCH_OBJECT, LDAP_ALREADY_EXISTS, LDAP_UNWILLING_TO_PERFORM]

/-- A fully well-behaved add environment for the C4 witness. -/
def addEnvOkW : AddEnv :=
  { schema_rc := 0, opattrs_rc := 0, stat_dir_other := false,
    stat_pfile_other := false, stat_leaf_other := false, mkdir_ok := true,
    wenv := { mkstemp_ok := true, mkstemp_errno := 0, entry2str_ok := true,
              spew_ok := true, spew_errno := 0, close_ok := true,
              close_errno := 0, rename_ok := true, rename_errno := 0 } }

/-- Witness for C4: concrete add of content `[1]` into a state with the
parent directory missing but the parent entry file present. -/
theorem C4_add_parent_check_witness :
    (({ parentDir := false, parentFile := true, target := none } : AddFS).parentDir = false →
      ({ parentDir := false, parentFile := true, target := none } : AddFS).parentFile = true →
      ({ parentDir := false, parentFile := true, target := none } : AddFS).target = none →
      (ldif_back_add addEnvOkW [1]
          { parentDir := false, parentFile := true, target := none }).mkdirMode = some 488 ∧
      (ldif_back_add addEnvOkW [1]
          { parentDir := false, parentFile := true, target := none }).rc = LDAP_SUCCESS ∧
      (ldif_back_add addEnvOkW [1]
          { parentDir := false, parentFile := true, target := none }).fs.parentDir = true ∧
      (ldif_back_add addEnvOkW [1]
          { parentDir := false, parentFile := true, target := none }).fs.target = some [1]) ∧
    (({ parentDir := false, parentFile := true, target := none } : AddFS).parentDir = false →
      ({ parentDir := false, parentFile := true, target := none } : AddFS).parentFile = false →
      (ldif_back_add addEnvOkW [1]
          { parentDir := false, parentFile := true, target := none }).rc = LDAP_NO_SUCH_OBJECT ∧
      (ldif_back_add addEnvOkW [1]
          { parentDir := false, parentFile := true, target := none }).fs =
        { parentDir := false, parentFile := true, target := none } ∧
      (ldif_back_add addEnvOkW [1]
          { parentDir := false, parentFile := true, target := none }).mkdirMode = none ∧
      (ldif_back_add addEnvOkW [1]
          { parentDir := false, parentFile := true, target := none }).tmpLeft = false) ∧
    ((({ parentDir := false, parentFile := true, target := none } : AddFS).parentDir = true ∨
        ({ parentDir := false, parentFile := true, target := none } : AddFS).parentFile = true) →
      ({ parentDir := false, parentFile := true, target := none } : AddFS).target.isSome = true →
      (ldif_back_add addEnvOkW [1]
          { parentDir := false, parentFile := true, target := none }).rc = LDAP_ALREADY_EXISTS ∧
      (ldif_back_add addEnvOkW [1]
          { parentDir := false, parentFile := true, target := none }).fs.target =
        ({ parentDir := false, parentFile := true, target := none } : AddFS).target) ∧
    (({ parentDir := false, parentFile := true, target := none } : AddFS).parentDir = true →
      ({ parentDir := false, parentFile := true, target := none } : AddFS).target = none →
      (ldif_back_add addEnvOkW [1]
          { parentDir := false, parentFile := true, target := none }).rc = LDAP_SUCCESS ∧
      (ldif_back_add addEnvOkW [1]
          { parentDir := false, parentFile := true, target := none }).fs.target = some [1] ∧
      (ldif_back_add addEnvOkW [1]
          { parentDir := false, parentFile := true, target := none }).tmpLeft = false) :=
  C4_add_parent_check addEnvOkW [1]
    { parentDir := false, parentFile := true, target := none }
    (by constructor <;> first | rfl | (constructor <;> first | rfl | (repeat (first | constructor | rfl))))

/-! ## The ordered-RDN sibling sort (r_enum_tree, lines 613-656)

Directory entries whose names end in `".ldif"` are annotated with the first
`'{'`..`'}'` region: its text, its `strtol(, NULL, 0)` value, and the name
with the byte after `'{'` zeroed (the C code NUL-terminates there so the
`strcmp` compares the prefix up to and including `'{'`).  Each annotated name
is insertion-sorted: `strcmp` on the zeroed names, ties broken by the parsed
integer when the new name has one. -/

/-- Bytes isspace() accepts in the C locale. -/
def isSpaceB (c : Nat) : Bool := c == 32 || (9 ≤ c && c ≤ 13)

/-- Value of an ASCII hex digit, if any. -/
def digitVal (c : Nat) : Option Nat :=
  if 48 ≤ c && c ≤ 57 then some (c - 48)
  else if 65 ≤ c && c ≤ 70 then some (c - 55)
  else if 97 ≤ c && c ≤ 102 then some (c - 87)
  else none

/-- Greedy digit accumulation in the given base, stopping at the first byte
that is not a digit of that base. -/
def digitsVal (base : Nat) (acc : Nat) : List Nat → Nat
  | [] => acc
  | c :: rest =>
    match digitVal c with
    | some d => if d < base then digitsVal base (acc * base + d) rest else acc
    | none => acc

/-- strtol(s, NULL, 0): optional whitespace and sign, then base detection
(`0x`/`0X` hex, leading `0` octal, else decimal) and greedy digits.  The
LONG_MAX clamp is not modelled (the names in question carry small numbers). -/
def strtol0 (s : List Nat) : Int :=
  let s1 := s.dropWhile isSpaceB
  let sgn : Bool × List Nat :=
    match s1 with
    | 45 :: r => (true, r)
    | 43 :: r => (false, r)
    | _ => (false, s1)
  let v : Nat :=
    match sgn.2 with
    | 48 :: 120 :: r => digitsVal 16 0 r
    | 48 :: 88 :: r => digitsVal 16 0 r
    | 48 :: r => digitsVal 8 0 r
    | r => digitsVal 10 0 r
  if sgn.1 then -(v : Int) else (v : Int)

/-- strcmp over byte lists with C-string semantics: a `0` byte (and the end
of the list) terminates; the result is the first byte difference. -/
def cStrCmp : List Nat → List Nat → Int
  | [], [] => 0
  | [], b :: _ => if b == 0 then 0 else -(b : Int)
  | a :: _, [] => if a == 0 then 0 else (a : Int)
  | a :: as, b :: bs =>
    if a == 0 || b == 0 then (a : Int) - (b : Int)
    else if a == b then cStrCmp as bs else (a : Int) - (b : Int)

/-- One node of the C `bvlist` (lines 515-521): the (possibly zeroed) name
bytes, the `{...}` number region if found, its strtol value, and the zeroed
offset. -/
structure BvItem where
  bv : List Nat
  num : Option (List Nat)
  inum : Int
  off : Nat

/-- Annotation of one directory-entry name (lines 627-644): find the first
`IX_FSL = '{'`; if a later `IX_FSR = '}'` exists, remember the enclosed
bytes, parse from just after `'{'` with `strtol(,NULL,0)`, and zero the byte
right after `'{'`. -/
def mkItem (n : List Nat) : BvItem :=
  let i := n.findIdx (fun b => b == 123)
  if i < n.length then
    let rest := n.drop (i + 1)
    let j := rest.findIdx (fun b => b == 125)
    if j < rest.length then
      { bv := n.set (i + 1) 0, num := some (rest.take j),
        inum := strtol0 rest, off := i + 1 }
    else { bv := n, num := none, inum := 0, off := 0 }
  else { bv := n, num := none, inum := 0, off := 0 }

/-- The comparison of lines 646-652: strcmp of the stored names; if equal and
the new item is ordered, the difference of the parsed numbers. -/
def cmpItems (x y : BvItem) : Int :=
  let c := cStrCmp x.bv y.bv
  if c == 0 && x.num.isSome then x.inum - y.inum else c

/-- The insertion of lines 646-654: walk the sorted list and insert the new
pair before the first strictly greater element. -/
def insPair {α : Type} (p : BvItem × α) : List (BvItem × α) → List (BvItem × α)
  | [] => [p]
  | q :: rest => if cmpItems p.1 q.1 < 0 then p :: q :: rest else q :: insPair p rest

/-- The readdir filter of lines 620-624: keep names longer than
`STRLENOF(".ldif")` that end in `".ldif"`. -/
def fnameOk (n : List Nat) : Bool :=
  decide (n.length > 5) && (n.drop (n.length - 5) == ldifExt)

/-- The whole collection phase of r_enum_tree's readdir loop: filter the
names, annotate each and insertion-sort it; the enumeration then walks the
result in order (with the `{N}` bytes restored, which reproduces the original
name). -/
def buildSorted (names : List (List Nat)) : List (List Nat) :=
  ((names.filter fnameOk).foldl (fun acc n => insPair (mkItem n, n) acc) []).map
    Prod.snd

/-- C5: ordered-RDN siblings sort numerically.  A directory containing
exactly the children `{0}x.ldif`, `{10}x.ldif` and `{2}x.ldif` (bytes below)
is delivered in the order `{0}x`, `{2}x`, `{10}x` whatever order readdir
produced — all six readdir orders are checked. -/
theorem C5_ordered_rdn_sort :
    buildSorted [[123, 48, 125, 120, 46, 108, 100, 105, 102],
        [123, 49, 48, 125, 120, 46, 108, 100, 105, 102],
        [123, 50, 125, 120, 46, 108, 100, 105, 102]] =
      [[123, 48, 125, 120, 46, 108, 100, 105, 102],
        [123, 50, 125, 120, 46, 108, 100, 105, 102],
        [123, 49, 48, 125, 120, 46, 108, 100, 105, 102]] ∧
    buildSorted [[123, 48, 125, 120, 46, 108, 100, 105, 102],
        [123, 50, 125, 120, 46, 108, 100, 105, 102],
        [123, 49, 48, 125, 120, 46, 108, 100, 105, 102]] =
      [[123, 48, 125, 120, 46, 108, 100, 105, 102],
        [123, 50, 125, 120, 46, 108, 100, 105, 102],
        [123, 49, 48, 125, 120, 46, 108, 100, 105, 102]] ∧
    buildSorted [[123, 49, 48, 125, 120, 46, 108, 100, 105, 102],
        [123, 48, 125, 120, 46, 108, 100, 105, 102],
        [123, 50, 125, 120, 46, 108, 100, 105, 102]] =
      [[123, 48, 125, 120, 46, 108, 100, 105, 102],
        [123, 50, 125, 120, 46, 108, 100, 105, 102],
        [123, 49, 48, 125, 120, 46, 108, 100, 105, 102]] ∧
    buildSorted [[123, 49, 48, 125, 120, 46, 108, 100, 105, 102],
        [123, 50, 125, 120, 46, 108, 100, 105, 102],
        [123, 48, 125, 120, 46, 108, 100, 105, 102]] =
      [[123, 48, 125, 120, 46, 108, 100, 105, 102],
        [123, 50, 125, 120, 46, 108, 100, 105, 102],
        [123, 49, 48, 125, 120, 46, 108, 100, 105, 102]] ∧
    buildSorted [[123, 50, 125, 120, 46, 108, 100, 105, 102],
        [123, 48, 125, 120, 46, 108, 100, 105, 102],
        [123, 49, 48, 125, 120, 46, 108, 100, 105, 102]] =
      [[123, 48, 125, 120, 46, 108, 100, 105, 102],
        [123, 50, 125, 120, 46, 108, 100, 105, 102],
        [123, 49, 48, 125, 120, 46, 108, 100, 105, 102]] ∧
    buildSorted [[123, 50, 125, 120, 46, 108, 100, 105, 102],
        [123, 49, 48, 125, 120, 46, 108, 100, 105, 102],
        [123, 48, 125, 120, 46, 108, 100, 105, 102]] =
      [[123, 48, 125, 120, 46, 108, 100, 105, 102],
        [123, 50, 125, 120, 46, 108, 100, 105, 102],
        [123, 49, 48, 125, 120, 46, 108, 100, 105, 102]] := by
  decide

/-! ## The tree enumerator (r_enum_tree, lines 524-688)

A static on-disk subtree: each node is one entry file (its directory-entry
name, the leaf RDN its contents store, whether it is a referral, whether it
matches the search filter) plus the children found in its subtree directory.
DNs are RDN lists, leaf first; an entry's DN is its stored RDN consed onto
the parent DN passed down the descent (lines 674-676).  The model is the
streaming (search) mode with a sink that never fails, over a static tree:
every listed child's entry file reads back successfully, so the enumeration
rc stays LDAP_SUCCESS and no branch is cut short.  Delivered entries are
returned in order; referrals are sent as search references (lines 546-561)
and so do not appear in the entry stream. -/

inductive DTree where
  | mk (fname : List Nat) (rdn : List Nat) (isRef : Bool) (fmatch : Bool)
      (children : List DTree)

def DTree.fname : DTree → List Nat
  | .mk f _ _ _ _ => f

def DTree.rdn : DTree → List Nat
  | .mk _ r _ _ _ => r

def DTree.isRef : DTree → Bool
  | .mk _ _ i _ _ => i

def DTree.fmatch : DTree → Bool
  | .mk _ _ _ m _ => m

def DTree.children : DTree → List DTree
  | .mk _ _ _ _ c => c

/-- The scope adjustment of lines 659-662: ONELEVEL narrows to BASE for the
children, SUBORDINATE widens to SUBTREE. -/
def narrowScope (scope : Nat) : Nat :=
  if scope == LDAP_SCOPE_ONELEVEL then LDAP_SCOPE_BASE
  else if scope == LDAP_SCOPE_SUBORDINATE then LDAP_SCOPE_SUBTREE
  else scope

mutual
/-- r_enum_tree (lines 524-688), streaming mode, on a static tree.  When
`isBase` is false the node's own entry is loaded and, for scope BASE or
SUBTREE, delivered (a referral is sent as a reference instead when the
client did not request manage-DSA-IT and the scope is not BASE; otherwise
the filter decides).  For any scope other than BASE the subtree directory is
listed, the `.ldif` children are annotated and insertion-sorted exactly as
in `buildSorted`, the scope is narrowed, and each child is enumerated with
this entry's DN as parent (or the caller's parent DN when no entry was
loaded at this level). -/
def rEnum (mgd : Bool) (scope : Nat) (isBase : Bool) (pdn : List (List Nat)) :
    DTree → List (List (List Nat))
  | .mk _ rdn ref m ch =>
    let dn := rdn :: pdn
    let self :=
      if isBase then []
      else if scope == LDAP_SCOPE_BASE || scope == LDAP_SCOPE_SUBTREE then
        if !mgd && !(scope == LDAP_SCOPE_BASE) && ref then []
        else if m then [dn] else []
      else []
    let down :=
      if !(scope == LDAP_SCOPE_BASE) then
        let pairs := rEnumKids mgd (narrowScope scope) (if isBase then pdn else dn) ch
        ((pairs.foldl (fun acc p => insPair p acc) []).map Prod.snd).flatten
      else []
    self ++ down

/-- The readdir loop of lines 613-656 fused with the recursion of lines
664-683: each child whose name passes the `.ldif` filter contributes its
sort key and its recursive enumeration; the caller insertion-sorts the pairs
by key, which delivers the same sequence as sorting the names first. -/
def rEnumKids (mgd : Bool) (scope : Nat) (pdn : List (List Nat)) :
    List DTree → List (BvItem × List (List (List Nat)))
  | [] => []
  | t :: rest =>
    (if fnameOk t.fname then [(mkItem t.fname, rEnum mgd scope false pdn t)]
     else []) ++ rEnumKids mgd scope pdn rest
end

theorem mem_insPair {α : Type} (x p : BvItem × α) (l : List (BvItem × α)) :
    x ∈ insPair p l ↔ x = p ∨ x ∈ l := by
  induction l with
  | nil => simp [insPair]
  | cons q rest ih =>
    unfold insPair
    split
    · simp [or_comm, or_assoc, or_left_comm]
    · simp [ih]
      tauto

theorem mem_foldl_ins {α : Type} (x : BvItem × α) :
    ∀ (l acc : List (BvItem × α)),
      x ∈ l.foldl (fun acc p => insPair p acc) acc ↔ x ∈ l ∨ x ∈ acc := by
  intro l
  induction l with
  | nil => simp
  | cons p rest ih =>
    intro acc
    rw [List.foldl_cons, ih, mem_insPair]
    simp
    tauto

theorem mem_rEnumKids (mgd : Bool) (scope : Nat) (pdn : List (List Nat))
    (pr : BvItem × List (List (List Nat))) : ∀ ch : List DTree,
    pr ∈ rEnumKids mgd scope pdn ch ↔
      ∃ c ∈ ch, fnameOk c.fname = true ∧
        pr = (mkItem c.fname, rEnum mgd scope false pdn c) := by
  intro ch
  induction ch with
  | nil => rw [rEnumKids]; simp
  | cons t rest ih =>
    rw [rEnumKids]
    by_cases hok : fnameOk t.fname = true
    · simp only [hok, if_true, List.cons_append, List.nil_append, List.mem_cons, ih]
      constructor
      · rintro (rfl | ⟨c, hc, hcok, rfl⟩)
        · exact ⟨t, Or.inl rfl, hok, rfl⟩
        · exact ⟨c, Or.inr hc, hcok, rfl⟩
      · rintro ⟨c, (rfl | hc2), hcok, rfl⟩
        · exact Or.inl rfl
        · exact Or.inr ⟨c, hc2, hcok, rfl⟩
    · simp only [hok, Bool.false_eq_true, if_false, List.nil_append, List.mem_cons, ih]
      constructor
      · rintro ⟨c, hc, hcok, rfl⟩
        exact ⟨c, Or.inr hc, hcok, rfl⟩
      · rintro ⟨c, (rfl | hc2), hcok, rfl⟩
        · exact absurd hcok hok
        · exact ⟨c, hc2, hcok, rfl⟩

/-- A non-base call at scope BASE (= 0) delivers exactly the entry itself
when it matches, and never descends. -/
theorem rEnum_base_eq (mgd : Bool) (pdn : List (List Nat)) (c : DTree) :
    rEnum mgd 0 false pdn c = if c.fmatch then [c.rdn :: pdn] else [] := by
  obtain ⟨fn, rdn, ref, m, ch⟩ := c
  rw [rEnum]
  simp [DTree.fmatch, DTree.rdn, LDAP_SCOPE_BASE, LDAP_SCOPE_SUBTREE]

/-- C6: a search with base = suffix and scope ONELEVEL delivers exactly the
matching entries one level below the base.  With the base node's entry
loaded (`isBase = false`, nonempty search base), an entry is delivered iff
it is a directory child of the base whose name passes the `.ldif` filter and
whose entry matches the filter, and its DN is one RDN below the base DN —
the base itself is never delivered and nothing deeper is, because the
recursion narrows ONELEVEL to BASE. -/
theorem C6_onelevel_exact (mgd : Bool) (t : DTree) (pdn : List (List Nat))
    (e : List (List Nat)) :
    e ∈ rEnum mgd LDAP_SCOPE_ONELEVEL false pdn t ↔
      ∃ c, c ∈ t.children ∧ fnameOk c.fname = true ∧ c.fmatch = true ∧
        e = c.rdn :: t.rdn :: pdn := by
  obtain ⟨fn, rdn, ref, m, ch⟩ := t
  show e ∈ rEnum mgd LDAP_SCOPE_ONELEVEL false pdn (.mk fn rdn ref m ch) ↔
      ∃ c, c ∈ ch ∧ fnameOk c.fname = true ∧ c.fmatch = true ∧
        e = c.rdn :: rdn :: pdn
  rw [rEnum]
  simp only [LDAP_SCOPE_ONELEVEL, LDAP_SCOPE_BASE, LDAP_SCOPE_SUBTREE]
  rw [show narrowScope 1 = 0 from rfl]
  simp only [show ((1 : Nat) == 0 || (1 : Nat) == 2) = false from rfl,
    Bool.false_eq_true, if_false, show (!((1 : Nat) == 0)) = true from rfl,
    if_true, if_false, List.nil_append]
  rw [List.mem_flatten]
  constructor
  · rintro ⟨l, hl, hel⟩
    rw [List.mem_map] at hl
    obtain ⟨pr, hpr, rfl⟩ := hl
    rw [mem_foldl_ins] at hpr
    rcases hpr with hpr | hpr
    · rw [mem_rEnumKids] at hpr
      obtain ⟨c, hc, hcok, rfl⟩ := hpr
      rw [show (mkItem c.fname, rEnum mgd 0 false (rdn :: pdn) c).2 =
        rEnum mgd 0 false (rdn :: pdn) c from rfl, rEnum_base_eq] at hel
      by_cases hm : c.fmatch = true
      · rw [if_pos hm] at hel
        rw [List.mem_singleton] at hel
        exact ⟨c, hc, hcok, hm, hel⟩
      · rw [if_neg hm] at hel
        exact absurd hel (List.not_mem_nil e)
    · exact absurd hpr (List.not_mem_nil pr)
  · rintro ⟨c, hc, hcok, hm, rfl⟩
    refine ⟨[c.rdn :: rdn :: pdn], ?_, List.mem_singleton_self _⟩
    rw [List.mem_map]
    refine ⟨(mkItem c.fname, rEnum mgd 0 false (rdn :: pdn) c), ?_, ?_⟩
    · rw [mem_foldl_ins]
      left
      rw [mem_rEnumKids]
      exact ⟨c, hc, hcok, rfl⟩
    · rw [show (mkItem c.fname, rEnum mgd 0 false (rdn :: pdn) c).2 =
        rEnum mgd 0 false (rdn :: pdn) c from rfl, rEnum_base_eq, if_pos hm]

/-! ## Bind (ldif_back_bind, lines 936-991)

Environment: the outcome of `be_rootdn_bind` (`none` models
SLAP_CB_CONTINUE, `some r` the rootdn path where the result is already
settled), the entry read by get_entry as the list of its attribute
descriptors, and the verdict of slap_passwd_check.  The userPassword
attribute descriptor is an abstract tag. -/

def ad_userPassword : Nat := 90

structure BindEnv where
  rootdn_rc : Option Nat
  entry : Option (List Nat)
  passwd_ok : Bool

structure BindResult where
  return_val : Nat
  sr_err : Nat

/-- ldif_back_bind (lines 936-991): after be_rootdn_bind continues, read the
entry (absent → `rs->sr_err = return_val = LDAP_INVALID_CREDENTIALS`, line
961); `attr_find` the userPassword attribute (absent →
`rs->sr_err = LDAP_INAPPROPRIATE_AUTH`, `return_val = 1`, lines 966-969);
slap_passwd_check (failure → `rs->sr_err = LDAP_INVALID_CREDENTIALS`,
`return_val = 1`, lines 973-977); otherwise `return_val = 0` and the
front end sends success. -/
def ldif_back_bind (env : BindEnv) : BindResult :=
  match env.rootdn_rc with
  | some r => { return_val := r, sr_err := r }
  | none =>
    match env.entry with
    | none =>
      { return_val := LDAP_INVALID_CREDENTIALS, sr_err := LDAP_INVALID_CREDENTIALS }
    | some attrs =>
      if !(attrs.contains ad_userPassword) then
        { return_val := 1, sr_err := LDAP_INAPPROPRIATE_AUTH }
      else if !env.passwd_ok then
        { return_val := 1, sr_err := LDAP_INVALID_CREDENTIALS }
      else { return_val := 0, sr_err := LDAP_SUCCESS }

/-- C8 counterexample: an entry that exists but has no userPassword
attribute is answered with LDAP_INAPPROPRIATE_AUTH (48), not the
LDAP_INVALID_CREDENTIALS (49) the claim asserts. -/
theorem C8_counterexample :
    (ldif_back_bind { rootdn_rc := none, entry := some [], passwd_ok := true }).sr_err =
      LDAP_INAPPROPRIATE_AUTH ∧
    LDAP_INAPPROPRIATE_AUTH ≠ LDAP_INVALID_CREDENTIALS := by
  constructor
  · rfl
  · decide

/-- C8 amended: with be_rootdn_bind continuing, bind answers
InvalidCredentials when the entry is absent or password verification fails,
but InappropriateAuth when the entry exists without a userPassword
attribute; it succeeds (return 0, front end sends success) exactly when the
entry exists, carries a password, and verification succeeds. -/
theorem C8_bind_codes (env : BindEnv) (h : env.rootdn_rc = none) :
    (env.entry = none →
      (ldif_back_bind env).sr_err = LDAP_INVALID_CREDENTIALS ∧
      (ldif_back_bind env).return_val = LDAP_INVALID_CREDENTIALS) ∧
    (∀ attrs, env.entry = some attrs → attrs.contains ad_userPassword = false →
      (ldif_back_bind env).sr_err = LDAP_INAPPROPRIATE_AUTH ∧
      (ldif_back_bind env).return_val = 1) ∧
    (∀ attrs, env.entry = some attrs → attrs.contains ad_userPassword = true →
      env.passwd_ok = false →
      (ldif_back_bind env).sr_err = LDAP_INVALID_CREDENTIALS ∧
      (ldif_back_bind env).return_val = 1) ∧
    (∀ attrs, env.entry = some attrs → attrs.contains ad_userPassword = true →
      env.passwd_ok = true → (ldif_back_bind env).return_val = 0) := by
  obtain ⟨rdn_rc, entry, pok⟩ := env
  dsimp only at h
  subst h
  refine ⟨?_, ?_, ?_, ?_⟩
  · rintro rfl
    exact ⟨rfl, rfl⟩
  · rintro attrs rfl hpw
    simp at hpw
    simp [ldif_back_bind, hpw]
  · rintro attrs rfl hpw hpo
    subst hpo
    simp at hpw
    simp [ldif_back_bind, hpw]
  · rintro attrs rfl hpw hpo
    subst hpo
    simp at hpw
    simp [ldif_back_bind, hpw, LDAP_SUCCESS]

/-- Witness for C8's amended theorem at a concrete environment (entry
absent). -/
theorem C8_bind_codes_witness :
    (({ rootdn_rc := none, entry := none, passwd_ok := true } : BindEnv).entry = none →
      (ldif_back_bind { rootdn_rc := none, entry := none, passwd_ok := true }).sr_err =
        LDAP_INVALID_CREDENTIALS ∧
      (ldif_back_bind { rootdn_rc := none, entry := none, passwd_ok := true }).return_val =
        LDAP_INVALID_CREDENTIALS) ∧
    (∀ attrs,
      ({ rootdn_rc := none, entry := none, passwd_ok := true } : BindEnv).entry = some attrs →
      attrs.contains ad_userPassword = false →
      (ldif_back_bind { rootdn_rc := none, entry := none, passwd_ok := true }).sr_err =
        LDAP_INAPPROPRIATE_AUTH ∧
      (ldif_back_bind { rootdn_rc := none, entry := none, passwd_ok := true }).return_val = 1) ∧
    (∀ attrs,
      ({ rootdn_rc := none, entry := none, passwd_ok := true } : BindEnv).entry = some attrs →
      attrs.contains ad_userPassword = true →
      ({ rootdn_rc := none, entry := none, passwd_ok := true } : BindEnv).passwd_ok = false →
      (ldif_back_bind { rootdn_rc := none, entry := none, passwd_ok := true }).sr_err =
        LDAP_INVALID_CREDENTIALS ∧
      (ldif_back_bind { rootdn_rc := none, entry := none, passwd_ok := true }).return_val = 1) ∧
    (∀ attrs,
      ({ rootdn_rc := none, entry := none, passwd_ok := true } : BindEnv).entry = some attrs →
      attrs.contains ad_userPassword = true →
      ({ rootdn_rc := none, entry := none, passwd_ok := true } : BindEnv).passwd_ok = true →
      (ldif_back_bind { rootdn_rc := none, entry := none, passwd_ok := true }).return_val = 0) :=
  C8_bind_codes { rootdn_rc := none, entry := none, passwd_ok := true } rfl

/-! ## The tool cursor (ldif_tool_entry_get, lines 1361-1372)

The tool cookie's buffer is a list of owned-entry slots (a slot is `none`
once its entry has been handed out) and the filled count `eind`; entry ids
are 1-based. -/

structure ToolState (α : Type) where
  entries : List (Option α)
  eind : Nat

/-- ldif_tool_entry_get (lines 1361-1372): ids outside `1 .. eind` return
NULL; otherwise the slot's entry is returned and the slot is set to NULL. -/
def ldif_tool_entry_get {α : Type} (st : ToolState α) (id : Nat) :
    Option α × ToolState α :=
  if id > st.eind || id < 1 then (none, st)
  else (st.entries.getD (id - 1) none,
    { st with entries := st.entries.set (id - 1) none })

theorem getD_set_none {α : Type} : ∀ (l : List (Option α)) (n : Nat),
    ((l.set n none).getD n none) = none := by
  intro l
  induction l with
  | nil => intro n; simp
  | cons a t ih =>
    intro n
    match n with
    | 0 => rfl
    | m + 1 =>
      rw [List.set_cons_succ, List.getD_cons_succ]
      exact ih m

/-- C9: the tool cursor's get is a one-shot ownership transfer with total
bounds checking.  Ids 0 or above `eind` return no entry and leave the state
unchanged; an in-range id returns the buffered slot and clears it, so a
second get of the same id returns no entry. -/
theorem C9_tool_get_one_shot (α : Type) (st : ToolState α) (id : Nat) :
    ((id = 0 ∨ id > st.eind) →
      (ldif_tool_entry_get st id).1 = none ∧ (ldif_tool_entry_get st id).2 = st) ∧
    (1 ≤ id → id ≤ st.eind →
      (ldif_tool_entry_get st id).1 = st.entries.getD (id - 1) none ∧
      (ldif_tool_entry_get (ldif_tool_entry_get st id).2 id).1 = none) := by
  constructor
  · intro hout
    have hcond : (id > st.eind || id < 1) = true := by
      rcases hout with rfl | h
      · simp
      · simp [h]
    rw [ldif_tool_entry_get, if_pos hcond]
    exact ⟨rfl, rfl⟩
  · intro h1 h2
    have hcond : (id > st.eind || id < 1) = false := by
      simp; omega
    rw [ldif_tool_entry_get, if_neg (by rw [hcond]; exact Bool.false_ne_true)]
    refine ⟨rfl, ?_⟩
    rw [ldif_tool_entry_get]
    rw [if_neg (by rw [show ({ st with entries := st.entries.set (id - 1) none } :
      ToolState α).eind = st.eind from rfl, hcond]; exact Bool.false_ne_true)]
    exact getD_set_none st.entries (id - 1)
